import Mathlib

/-!
Verification of the Langium type-consistency checker
(`packages/langium/src/grammar/type-system/type-validator.ts`) and the
validation registry (`validation-registry.ts`).

The TypeScript code is shallowly embedded: the diagnostic acceptor is
modelled by returning lists of diagnostics, JavaScript `Map` objects by
insertion-ordered association lists, and the `MultiMap` utility by a list of
key/value pairs.
-/

namespace LangiumTV

/-! ## Association-list model of a JavaScript `Map`

`Map.set` replaces the value of an existing key in place (keeping insertion
order) and appends a fresh key at the end; `Map.get` looks the key up;
iteration follows list order. -/

def jsSet {α β : Type} [DecidableEq α] : List (α × β) → α → β → List (α × β)
  | [], k, v => [(k, v)]
  | (k', v') :: rest, k, v =>
    if k' = k then (k, v) :: rest else (k', v') :: jsSet rest k v

def jsGet {α β : Type} [DecidableEq α] : List (α × β) → α → Option β
  | [], _ => none
  | (k', v) :: rest, k => if k' = k then some v else jsGet rest k

/-! ## The `MultiMap` utility (`utils/collections.ts`)

Modelled from the spec: `MultiMap.add` appends a key/value pair, `get`
returns all values stored under the key in insertion order (the file
`utils/collections.ts` is not among the sources). -/

def multiAdd {α β : Type} (m : List (α × β)) (k : α) (v : β) : List (α × β) :=
  m ++ [(k, v)]

def multiGet {α β : Type} [DecidableEq α] (m : List (α × β)) (k : α) : List β :=
  (m.filter (fun p => p.1 = k)).map (fun p => p.2)

/-! ## AST nodes

Grammar AST nodes are modelled structurally; rule bodies are abstracted to
the list of property assignments they contain (see `extractAssignments`). -/

/-- A property-assignment occurrence inside a rule body; `feature` is the
assigned property name, `id` distinguishes occurrences. -/
structure Assignment where
  feature : String
  id : Nat
  deriving DecidableEq, Repr

/-- The explicit inferred-type annotation node of a parser rule
(`infers T`). -/
structure InferredTypeNode where
  name : String
  deriving DecidableEq, Repr

/-- A parser rule node. `ruleType` is the type name the rule returns
(`getRuleType`), `inferredType` the optional explicit type annotation node,
`alternatives` the rule body abstracted to its assignment occurrences. -/
structure ParserRule where
  name : String
  ruleType : String
  inferredType : Option InferredTypeNode
  alternatives : List Assignment
  deriving DecidableEq, Repr

/-- A declared `type` statement node. -/
structure TypeDeclNode where
  name : String
  deriving DecidableEq, Repr

/-- A declared `interface` statement node. -/
structure InterfaceDeclNode where
  name : String
  deriving DecidableEq, Repr

/-- A `Type | Interface` declaration node. -/
inductive DeclNode where
  | typeDecl (t : TypeDeclNode)
  | interfaceDecl (i : InterfaceDeclNode)
  deriving DecidableEq, Repr

/-- The name of a declaration node. -/
def DeclNode.name : DeclNode → String
  | .typeDecl t => t.name
  | .interfaceDecl i => i.name

/-- Anchors a diagnostic can point at. -/
inductive NodeRef where
  | ruleNode (r : ParserRule)
  | inferredTypeNode (t : InferredTypeNode)
  | declNode (d : DeclNode)
  | assignmentNode (a : Assignment)
  deriving DecidableEq, Repr

/-- Modelled from the spec: the assignment-extraction utility
(`utils/ast-util.ts` is not among the sources) yields every
property-assignment occurrence of a rule body; rule bodies are already
abstracted to that list here. -/
def extractAssignments (alternatives : List Assignment) : List Assignment :=
  alternatives

/-! ## Diagnostics

`accept(severity, message, {node, property})` is modelled by returning
`Diagnostic` values; a run of the checker returns the list of diagnostics in
emission order. -/

inductive Severity where
  | error
  | warning
  | information
  | hint
  deriving DecidableEq, Repr

structure Diagnostic where
  severity : Severity
  message : String
  node : NodeRef
  property : Option String
  deriving DecidableEq, Repr

/-! ## Type description model (`types-util.ts`) -/

/-- One alternative shape of a property or union member. -/
structure PropertyType where
  types : List String
  reference : Bool
  array : Bool
  deriving DecidableEq, Repr

/-- A named interface property. -/
structure Property where
  name : String
  optional : Bool
  typeAlternatives : List PropertyType
  deriving DecidableEq, Repr

/-- A named union type. -/
structure UnionType where
  name : String
  union : List PropertyType
  deriving DecidableEq, Repr

/-- A named interface type (`superTypes` is a `Set<string>`, modelled as a
list in iteration order). -/
structure InterfaceType where
  name : String
  superTypes : List String
  properties : List Property
  deriving DecidableEq, Repr

/-- The union `UnionType | InterfaceType`, as an explicit tagged variant. -/
inductive TypeOrInterface where
  | unionT (u : UnionType)
  | interfaceT (i : InterfaceType)
  deriving DecidableEq, Repr

/-- Source `isType`: discriminates the union variant. -/
def isType : TypeOrInterface → Bool
  | .unionT _ => true
  | .interfaceT _ => false

/-- Source `isInterface`: discriminates the interface variant. -/
def isInterface : TypeOrInterface → Bool
  | .unionT _ => false
  | .interfaceT _ => true

/-- The name of a merged type description. -/
def TypeOrInterface.name : TypeOrInterface → String
  | .unionT u => u.name
  | .interfaceT i => i.name

/-- Source `AstTypes`: the output of the inferred/declared type collectors. -/
structure AstTypes where
  interfaces : List InterfaceType
  unions : List UnionType
  deriving Repr

/-- Source `AstResources`: the grammar resources (`collectAllAstResources`). -/
structure AstResources where
  parserRules : List ParserRule
  datatypeRules : List ParserRule
  interfaces : List InterfaceDeclNode
  types : List TypeDeclNode
  deriving Repr

/-- Lexicographic comparison of character lists. -/
def charListLe : List Char → List Char → Bool
  | [], _ => true
  | _ :: _, [] => false
  | a :: as, b :: bs => if a < b then true else if b < a then false else charListLe as bs

/-- Lexicographic comparison of strings. -/
def stringLe (a b : String) : Bool := charListLe a.data b.data

/-- Insert a string into a sorted list of strings. -/
def insertSorted (a : String) : List String → List String
  | [] => [a]
  | b :: t => if stringLe a b then a :: b :: t else b :: insertSorted a t

/-- Insertion sort on strings. -/
def sortStrings (l : List String) : List String := l.foldr insertSorted []

/-- Modelled from the spec: `distictAndSorted` (in `types-util.ts`, not
among the sources) deduplicates and sorts a list of names; comparison keys
are its `' | '`-join. -/
def distictAndSorted (l : List String) : List String :=
  sortStrings l.dedup

/-- The canonical comparison key of a property-type alternative: the sorted,
deduplicated, bar-joined string of its `types`. -/
def propertyTypeKey (t : PropertyType) : String :=
  " | ".intercalate (distictAndSorted t.types)

/-- Modelled from the spec: the string form of one alternative used inside
`propertyTypeArrayToString` (in `types-util.ts`, not among the sources):
the canonical type string decorated with the reference and array markers. -/
def propertyTypeToString (t : PropertyType) : String :=
  let base := (if t.reference then "@" else "") ++ propertyTypeKey t
  if t.array then "Array<" ++ base ++ ">" else base

/-- Modelled from the spec: `propertyTypeArrayToString` (in
`types-util.ts`, not among the sources) renders a list of alternatives as
the sorted, deduplicated, bar-joined string of their decorated forms. -/
def propertyTypeArrayToString (l : List PropertyType) : String :=
  " | ".intercalate (distictAndSorted (l.map propertyTypeToString))

/-- Modelled from the spec: `getRuleType` (in `grammar-util.ts`, not among
the sources) reads a rule's declared return-type name. -/
def getRuleType (r : ParserRule) : String :=
  r.ruleType

/-! ## Validation resources (`type-validator.ts`) -/

structure InferredInfo where
  inferred : TypeOrInterface
  nodes : List ParserRule
  deriving DecidableEq, Repr

structure DeclaredInfo where
  declared : TypeOrInterface
  node : DeclNode
  deriving DecidableEq, Repr

/-- The union `InferredInfo | DeclaredInfo | InferredInfo & DeclaredInfo`. -/
inductive TypeInfo where
  | inferredOnly (i : InferredInfo)
  | declaredOnly (d : DeclaredInfo)
  | both (i : InferredInfo) (d : DeclaredInfo)
  deriving DecidableEq, Repr

/-- Source `isInferredAndDeclared`. -/
def isInferredAndDeclared : TypeInfo → Bool
  | .both _ _ => true
  | _ => false

/-- Source `mergeTypesAndInterfaces`: interfaces followed by unions. -/
def mergeTypesAndInterfaces (astTypes : AstTypes) : List TypeOrInterface :=
  (astTypes.interfaces.map TypeOrInterface.interfaceT) ++
    (astTypes.unions.map TypeOrInterface.unionT)

/-- Source `getTypeNameToRules`: the multimap from a returned type name to the
rules returning it, over parser rules then datatype rules. -/
def getTypeNameToRules (astResources : AstResources) : List (String × ParserRule) :=
  (astResources.parserRules ++ astResources.datatypeRules).foldl
    (fun acc rule => multiAdd acc (getRuleType rule) rule) []

/-- The declaration node for a declared type name: the first `type`
statement of that name, else the first `interface` statement of that name
(`stream(types).find(...) ?? stream(interfaces).find(...)`). -/
def findDeclarationNode (astResources : AstResources) (name : String) : Option DeclNode :=
  match astResources.types.find? (fun e => e.name = name) with
  | some t => some (DeclNode.typeDecl t)
  | none =>
    match astResources.interfaces.find? (fun e => e.name = name) with
    | some i => some (DeclNode.interfaceDecl i)
    | none => none

/-- The `inferredInfo` map of `collectValidationResources`. -/
def inferredInfoMap (astResources : AstResources) (inferred : AstTypes) :
    List (String × InferredInfo) :=
  let typeNameToRules := getTypeNameToRules astResources
  (mergeTypesAndInterfaces inferred).foldl
    (fun acc type_ =>
      jsSet acc type_.name ⟨type_, multiGet typeNameToRules type_.name⟩) []

/-- The reduce callback building `allTypesInfo` in
`collectValidationResources`: a declared type with a declaration node is
stored (merged with its inferred info when present); one without a
declaration node is dropped. -/
def collectStep (astResources : AstResources) (inferredInfo : List (String × InferredInfo))
    (acc : List (String × TypeInfo)) (type_ : TypeOrInterface) : List (String × TypeInfo) :=
  match findDeclarationNode astResources type_.name with
  | some n =>
    match jsGet inferredInfo type_.name with
    | some inf => jsSet acc type_.name (TypeInfo.both inf ⟨type_, n⟩)
    | none => jsSet acc type_.name (TypeInfo.declaredOnly ⟨type_, n⟩)
  | none => acc

/-- Source `collectValidationResources`, parameterised over the outputs of the
external collectors `collectInferredTypes` and `collectDeclaredTypes`. -/
def collectValidationResources (astResources : AstResources)
    (inferred declared : AstTypes) : List (String × TypeInfo) :=
  (mergeTypesAndInterfaces declared).foldl
    (collectStep astResources (inferredInfoMap astResources inferred)) []

/-! ## The consistency checker -/

/-- The anchor used for rule-side errors: the explicit inferred-type
annotation node when present, else the rule node itself. -/
def ruleErrorNode (node : ParserRule) : NodeRef :=
  match node.inferredType with
  | some t => NodeRef.inferredTypeNode t
  | none => NodeRef.ruleNode node

/-- Source `applyErrorToRuleNodes`: emits the message, suffixed with the producing
rule's returned type name, once per rule node, anchored at the rule's
`name` property. -/
def applyErrorToRuleNodes (nodes : List ParserRule) (typeName : String) :
    String → List Diagnostic :=
  fun errorMessage =>
    nodes.map (fun node =>
      { severity := .error
        message := errorMessage ++ " in a rule that returns type '" ++ typeName ++ "'."
        node := ruleErrorNode node
        property := some "name" })

/-- Source `applyErrorToAssignment`: anchors a message at the first assignment of
the given property name among the rule bodies, and emits nothing when no
such assignment exists. -/
def applyErrorToAssignment (nodes : List ParserRule) :
    String → String → List Diagnostic :=
  let assignmentNodes := nodes.flatMap (fun node => extractAssignments node.alternatives)
  fun propertyName errorMessage =>
    match assignmentNodes.find? (fun assignment => assignment.feature = propertyName) with
    | some node =>
      [{ severity := .error
         message := errorMessage
         node := NodeRef.assignmentNode node
         property := some "feature" }]
    | none => []

structure ErrorInfo where
  errorMessage : String
  typeString : String
  deriving DecidableEq, Repr

/-- Source `arrRefError`: classifies an array/reference flag mismatch. -/
def arrRefError (found expected : PropertyType) : String :=
  if found.array && !expected.array && found.reference && !expected.reference then
    "can't be an array and a reference"
  else if !found.array && expected.array && !found.reference && expected.reference then
    "has to be an array and a reference"
  else if found.array && !expected.array then "can't be an array"
  else if !found.array && expected.array then "has to be an array"
  else if found.reference && !expected.reference then "can't be a reference"
  else if !found.reference && expected.reference then "has to be a reference"
  else ""

/-- Source `stringToPropertyTypeList`: keys a list of alternatives by canonical
type string (later duplicates replace earlier ones, as in `Map.set`). -/
def stringToPropertyTypeList (propertyTypeList : List PropertyType) :
    List (String × PropertyType) :=
  propertyTypeList.foldl (fun acc e => jsSet acc (propertyTypeKey e) e) []

/-- Source `checkAlternativesConsistencyHelper`: extra found alternatives and
array/reference mismatches of matched ones. -/
def checkAlternativesConsistencyHelper (found expected : List PropertyType) :
    List ErrorInfo :=
  let stringToFound := stringToPropertyTypeList found
  let stringToExpected := stringToPropertyTypeList expected
  stringToFound.flatMap (fun p =>
    match jsGet stringToExpected p.1 with
    | none => [{ typeString := p.1, errorMessage := "is not expected" }]
    | some expectedPropertyType =>
      if expectedPropertyType.array != p.2.array ||
          expectedPropertyType.reference != p.2.reference then
        [{ typeString := p.1, errorMessage := arrRefError p.2 expectedPropertyType }]
      else [])

/-- Source `checkAlternativesConsistency`. -/
def checkAlternativesConsistency (inferred declared : List PropertyType)
    (errorToRuleNodes : String → List Diagnostic) : List Diagnostic :=
  (checkAlternativesConsistencyHelper inferred declared).flatMap (fun errorInfo =>
    errorToRuleNodes ("A type '" ++ errorInfo.typeString ++ "' " ++ errorInfo.errorMessage))

/-- The `baseError` message of `checkPropertiesConsistency`. -/
def baseError (propertyName foundType expectedType : String) : String :=
  "The assigned type '" ++ foundType ++ "' is not compatible with the declared property '"
    ++ propertyName ++ "' of type '" ++ expectedType ++ "'."

/-- A property with exactly one alternative, that alternative an array. -/
def singleArrayAlternative (p : Property) : Bool :=
  match p.typeAlternatives with
  | [t] => t.array
  | _ => false

/-- The `checkOptional` guard of `checkPropertiesConsistency`. -/
def checkOptional (found expected : Property) : Bool :=
  !(singleArrayAlternative found || singleArrayAlternative expected)

/-- One sub-mismatch clause appended to the combined property message. -/
def mismatchClause (e : ErrorInfo) : String :=
  " '" ++ e.typeString ++ "' " ++ e.errorMessage ++ ";"

/-- Source `resultError.replace(/;$/, '.')`: a trailing semicolon becomes a
period. -/
def replaceTrailingSemicolon (s : String) : String :=
  match s.data.reverse with
  | ';' :: rest => String.mk (('.' :: rest).reverse)
  | _ => s

/-- The type-compatibility portion of the `checkPropertiesConsistency` loop
body for one matched property pair (source lines 181-193). -/
def checkPropertyType (errorToAssignment : String → String → List Diagnostic)
    (foundProperty expectedProperty : Property) : List Diagnostic :=
  let foundStringType := propertyTypeArrayToString foundProperty.typeAlternatives
  let expectedStringType := propertyTypeArrayToString expectedProperty.typeAlternatives
  if foundStringType ≠ expectedStringType then
    let typeAlternativesErrors :=
      checkAlternativesConsistencyHelper foundProperty.typeAlternatives
        expectedProperty.typeAlternatives
    if typeAlternativesErrors.length > 0 then
      let resultError :=
        typeAlternativesErrors.foldl (fun acc e => acc ++ mismatchClause e)
          (baseError foundProperty.name foundStringType expectedStringType)
      errorToAssignment foundProperty.name (replaceTrailingSemicolon resultError)
    else []
  else []

/-- The optionality portion of the `checkPropertiesConsistency` loop body
for one matched property pair (source lines 195-197). -/
def checkPropertyOptional (errorToAssignment : String → String → List Diagnostic)
    (foundProperty expectedProperty : Property) : List Diagnostic :=
  if checkOptional foundProperty expectedProperty && !expectedProperty.optional
      && foundProperty.optional then
    errorToAssignment foundProperty.name
      ("A property '" ++ foundProperty.name ++ "' can't be optional.")
  else []

/-- Source `checkPropertiesConsistency`. -/
def checkPropertiesConsistency (inferred declared : List Property)
    (errorToRuleNodes : String → List Diagnostic)
    (errorToAssignment : String → String → List Diagnostic) : List Diagnostic :=
  (inferred.flatMap (fun foundProperty =>
    match declared.find? (fun e => foundProperty.name = e.name) with
    | some expectedProperty =>
      checkPropertyType errorToAssignment foundProperty expectedProperty ++
        checkPropertyOptional errorToAssignment foundProperty expectedProperty
    | none =>
      errorToAssignment foundProperty.name
        ("A property '" ++ foundProperty.name ++ "' is not expected."))) ++
  (declared.flatMap (fun foundProperty =>
    match inferred.find? (fun e => foundProperty.name = e.name) with
    | some _ => []
    | none =>
      errorToRuleNodes ("A property '" ++ foundProperty.name ++ "' is expected")))

/-- The `specificError` message of `checkSuperTypesConsistency`. -/
def superTypeErrorMsg (superType : String) (isExtra : Bool) : String :=
  "A super type '" ++ superType ++ "' is " ++ (if isExtra then "not " else "") ++ "expected"

/-- Source `checkSuperTypesConsistency`. -/
def checkSuperTypesConsistency (inferred declared : List String)
    (errorToRuleNodes : String → List Diagnostic) : List Diagnostic :=
  ((inferred.filter (fun e => !declared.contains e)).flatMap (fun extraSuperType =>
    errorToRuleNodes (superTypeErrorMsg extraSuperType true))) ++
  ((declared.filter (fun e => !inferred.contains e)).flatMap (fun lackSuperType =>
    errorToRuleNodes (superTypeErrorMsg lackSuperType false)))

/-- The shape-mismatch message of `validateTypesConsistency`. -/
def shapeMismatchMsg (typeName : String) : String :=
  "Inferred and declared versions of type " ++ typeName ++
    " have to be types or interfaces both."

/-- The body of the `validateTypesConsistency` loop for one entry:
resources lacking one side are skipped, matching shapes dispatch to the
shape-specific checks, mismatched shapes produce the shape-mismatch error
on every rule node and on the declaration node. -/
def processTypeInfo (typeName : String) (typeInfo : TypeInfo) : List Diagnostic :=
  match typeInfo with
  | .both i d =>
    let errorToRuleNodes := applyErrorToRuleNodes i.nodes typeName
    let errorToAssignment := applyErrorToAssignment i.nodes
    match i.inferred, d.declared with
    | .unionT u1, .unionT u2 =>
      checkAlternativesConsistency u1.union u2.union errorToRuleNodes
    | .interfaceT t1, .interfaceT t2 =>
      checkPropertiesConsistency t1.properties t2.properties errorToRuleNodes
        errorToAssignment ++
      checkSuperTypesConsistency t1.superTypes t2.superTypes errorToRuleNodes
    | _, _ =>
      (i.nodes.map (fun node =>
        { severity := .error
          message := shapeMismatchMsg typeName
          node := ruleErrorNode node
          property := some "name" })) ++
      [{ severity := .error
         message := shapeMismatchMsg typeName
         node := NodeRef.declNode d.node
         property := some "name" }]
  | _ => []

/-- The `validateTypesConsistency` loop over a list of merge entries. -/
def validationPass (entries : List (String × TypeInfo)) : List Diagnostic :=
  entries.flatMap (fun p => processTypeInfo p.1 p.2)

/-- Source `validateTypesConsistency`, parameterised over the outputs of the
external type collectors. -/
def validateTypesConsistency (astResources : AstResources)
    (inferred declared : AstTypes) : List Diagnostic :=
  validationPass (collectValidationResources astResources inferred declared)

/-! ## Validation registry (`validation-registry.ts`)

A check invocation is modelled by its observable outcome: the diagnostics it
accepted, the entries it wrote to the operational log, and how it finished
(normal completion, or a thrown failure). -/

/-- A thrown JavaScript value: an `Error` object (with message and optional
stack), the cooperative-cancellation signal, or any other value (seen through
`String(err)`). -/
inductive JsError where
  | errorObj (message : String) (stack : Option String)
  | operationCancelled
  | otherValue (value : String)
  deriving DecidableEq, Repr

/-- Modelled from the spec: `isOperationCancelled` (in
`utils/promise-util.ts`, not among the sources) recognises the
cooperative-cancellation signal. -/
def isOperationCancelled : JsError → Bool
  | .operationCancelled => true
  | _ => false

/-- Source expression `err instanceof Error ? err.message : String(err)`. -/
def errMessageOf : JsError → String
  | .errorObj m _ => m
  | .operationCancelled => "Operation cancelled"
  | .otherValue v => v

/-- One `console.error` call: a message, optionally together with the thrown
value. -/
structure LogEntry where
  message : String
  thrown : Option JsError
  deriving DecidableEq, Repr

/-- How a check invocation finished. -/
inductive CheckTermination where
  | completed
  | threw (e : JsError)
  deriving DecidableEq, Repr

/-- The observable behaviour of one check invocation. -/
structure CheckRun where
  diagnostics : List Diagnostic
  log : List LogEntry
  termination : CheckTermination
  deriving Repr

/-- A `ValidationCheck`, modelled by its observable behaviour on the node
under check. -/
def ValidationCheck : Type := NodeRef → CheckRun

/-- Source `wrapValidationException`: cancellation is rethrown unchanged; any other
thrown failure is logged (with its stack when available) and converted into
one diagnostic on the node under check, and the wrapped check completes
normally. -/
def wrapValidationException (check : ValidationCheck) : ValidationCheck :=
  fun node =>
    let run := check node
    match run.termination with
    | .completed => run
    | .threw err =>
      if isOperationCancelled err then run
      else
        { diagnostics := run.diagnostics ++
            [{ severity := .error
               message := "An error occurred during validation: " ++ errMessageOf err
               node := node
               property := none }]
          log := run.log ++
            [{ message := "An error occurred during validation:", thrown := some err }] ++
            (match err with
             | .errorObj _ (some stack) => [{ message := stack, thrown := none }]
             | _ => [])
          termination := .completed }

/-- The reflection oracle (`AstReflection`). -/
structure AstReflection where
  getAllTypes : List String
  isSubtype : String → String → Bool

/-- Source `doRegister`: stores the check under every reflective subtype of the
registered type name. -/
def doRegister (reflection : AstReflection) (type_ : String) (check : ValidationCheck)
    (validationChecks : List (String × ValidationCheck)) :
    List (String × ValidationCheck) :=
  reflection.getAllTypes.foldl
    (fun acc subtype =>
      if reflection.isSubtype subtype type_ then multiAdd acc subtype check else acc)
    validationChecks

/-- Source `getChecks`: a plain lookup of the exact type name. -/
def getChecks (validationChecks : List (String × ValidationCheck)) (type_ : String) :
    List ValidationCheck :=
  multiGet validationChecks type_

/-- Source `register` over a flattened checks record: each check is wrapped with
`wrapValidationException` and stored via `doRegister`. -/
def register (reflection : AstReflection)
    (checksRecord : List (String × ValidationCheck))
    (validationChecks : List (String × ValidationCheck)) :
    List (String × ValidationCheck) :=
  checksRecord.foldl
    (fun acc p => doRegister reflection p.1 (wrapValidationException p.2) acc)
    validationChecks

/-! ## Agreement predicates

Vocabulary for stating when two type descriptions of the same name agree:
same canonical alternative strings with the same array/reference flags, same
property names and optional flags, same supertype name sets. -/

/-- The found alternative keyed by `p` has a counterpart of the same
canonical string in `se` with the same array and reference flags. -/
def altFlagsMatch (se : List (String × PropertyType)) (p : String × PropertyType) : Bool :=
  match jsGet se p.1 with
  | some q => q.array == p.2.array && q.reference == p.2.reference
  | none => false

/-- Two alternative lists agree: same canonical type strings on both sides,
and matched alternatives carry the same array and reference flags. -/
def altsAgree (found expected : List PropertyType) : Prop :=
  (∀ p ∈ stringToPropertyTypeList found,
     altFlagsMatch (stringToPropertyTypeList expected) p = true) ∧
  (∀ q ∈ stringToPropertyTypeList expected,
     (jsGet (stringToPropertyTypeList found) q.1).isSome = true)

/-- Two supertype name lists agree as sets. -/
def superTypesAgree (inferred declared : List String) : Prop :=
  (∀ s ∈ inferred, s ∈ declared) ∧ (∀ s ∈ declared, s ∈ inferred)

/-- Two property lists agree: same property names on both sides, and
same-named properties have agreeing alternatives and the same optional
flag. -/
def propertiesAgree (inferred declared : List Property) : Prop :=
  (∀ p ∈ inferred, ∃ q ∈ declared, p.name = q.name) ∧
  (∀ q ∈ declared, ∃ p ∈ inferred, q.name = p.name) ∧
  (∀ p ∈ inferred, ∀ q ∈ declared, p.name = q.name →
    altsAgree p.typeAlternatives q.typeAlternatives ∧ p.optional = q.optional)

/-- Inferred and declared descriptions agree: same shape kind, and the
shape-specific contents are identical in the sense of the claim. -/
def descriptionsAgree : TypeOrInterface → TypeOrInterface → Prop
  | .unionT u1, .unionT u2 => altsAgree u1.union u2.union
  | .interfaceT t1, .interfaceT t2 =>
    propertiesAgree t1.properties t2.properties ∧
      superTypesAgree t1.superTypes t2.superTypes
  | _, _ => False

/-- The raw array/reference mismatch conditions with their messages, in the
precedence order of the spec. -/
def arrRefConds (found expected : PropertyType) : List (Bool × String) :=
  [(found.array && !expected.array && found.reference && !expected.reference,
      "can't be an array and a reference"),
   (!found.array && expected.array && !found.reference && expected.reference,
      "has to be an array and a reference"),
   (found.array && !expected.array, "can't be an array"),
   (!found.array && expected.array, "has to be an array"),
   (found.reference && !expected.reference, "can't be a reference"),
   (!found.reference && expected.reference, "has to be a reference")]

/-- Selects the message of the first condition that holds, if any. -/
def precedenceSelect : List (Bool × String) → List String
  | [] => []
  | (b, m) :: rest => if b then [m] else precedenceSelect rest

instance instDecAltsAgree (found expected : List PropertyType) :
    Decidable (altsAgree found expected) := by
  unfold altsAgree
  infer_instance

instance instDecSuperTypesAgree (inferred declared : List String) :
    Decidable (superTypesAgree inferred declared) := by
  unfold superTypesAgree
  infer_instance

instance instDecPropertiesAgree (inferred declared : List Property) :
    Decidable (propertiesAgree inferred declared) := by
  unfold propertiesAgree
  infer_instance

instance instDecDescriptionsAgree : (x y : TypeOrInterface) → Decidable (descriptionsAgree x y)
  | .unionT u1, .unionT u2 => inferInstanceAs (Decidable (altsAgree u1.union u2.union))
  | .unionT _, .interfaceT _ => inferInstanceAs (Decidable False)
  | .interfaceT _, .unionT _ => inferInstanceAs (Decidable False)
  | .interfaceT t1, .interfaceT t2 =>
    inferInstanceAs (Decidable (propertiesAgree t1.properties t2.properties ∧
      superTypesAgree t1.superTypes t2.superTypes))

/-! ## Sample inputs used to instantiate the theorems -/

def sampleAssignP : Assignment := { feature := "p", id := 0 }

def sampleRule : ParserRule :=
  { name := "R", ruleType := "X", inferredType := none, alternatives := [sampleAssignP] }

def sampleAltA : PropertyType := { types := ["A"], reference := false, array := false }

def sampleAltAArr : PropertyType := { types := ["A"], reference := false, array := true }

def samplePropReq : Property := { name := "p", optional := false, typeAlternatives := [sampleAltA] }

def samplePropOpt : Property := { name := "p", optional := true, typeAlternatives := [sampleAltA] }

def samplePropArr : Property := { name := "p", optional := false, typeAlternatives := [sampleAltAArr] }

def sampleInterfaceX : InterfaceType :=
  { name := "X", superTypes := ["S"], properties := [samplePropReq] }

def sampleUnionX : UnionType := { name := "X", union := [sampleAltA] }

def sampleInfInterface : InferredInfo :=
  { inferred := .interfaceT sampleInterfaceX, nodes := [sampleRule] }

def sampleInfUnion : InferredInfo :=
  { inferred := .unionT sampleUnionX, nodes := [sampleRule] }

def sampleDeclInterface : DeclaredInfo :=
  { declared := .interfaceT sampleInterfaceX, node := .interfaceDecl { name := "X" } }

def sampleNode : NodeRef := NodeRef.ruleNode sampleRule

def sampleThrowingCheck : ValidationCheck :=
  fun _ =>
    { diagnostics := []
      log := []
      termination := .threw (JsError.errorObj "boom" (some "trace")) }

def sampleCheck : ValidationCheck :=
  fun _ => { diagnostics := [], log := [], termination := .completed }

def sampleReflection : AstReflection :=
  { getAllTypes := ["A", "B"]
    isSubtype := fun a b => a == b || (a == "B" && b == "A") }

def c3Rule : ParserRule :=
  { name := "X", ruleType := "X", inferredType := none, alternatives := [] }

def c3Resources : AstResources :=
  { parserRules := [c3Rule], datatypeRules := [], interfaces := [], types := [] }

def c3Inferred : AstTypes :=
  { interfaces := [{ name := "X", superTypes := [], properties := [] }], unions := [] }

def emptyAstTypes : AstTypes := { interfaces := [], unions := [] }

def d3Resources : AstResources :=
  { parserRules := [], datatypeRules := [], interfaces := [], types := [{ name := "D" }] }

def d3Declared : AstTypes :=
  { interfaces := [], unions := [{ name := "D", union := [sampleAltA] }] }

/-! # Helper lemmas -/

theorem jsGet_jsSet {α β : Type} [DecidableEq α] (m : List (α × β)) (k k' : α) (v : β) :
    jsGet (jsSet m k v) k' = if k = k' then some v else jsGet m k' := by
  induction m with
  | nil => simp [jsSet, jsGet]
  | cons hd tl ih =>
    obtain ⟨k0, v0⟩ := hd
    by_cases h0 : k0 = k
    · subst h0
      simp only [jsSet, if_pos rfl, jsGet]
      split_ifs <;> simp_all [jsGet]
    · simp only [jsSet, if_neg h0, jsGet]
      by_cases h1 : k0 = k'
      · subst h1
        rw [if_pos rfl, if_neg (fun hh : k = k0 => h0 hh.symm), if_pos rfl]
      · rw [if_neg h1, if_neg h1, ih]

theorem jsGet_singleton {α β : Type} [DecidableEq α] (k : α) (v : β) :
    jsGet [(k, v)] k = some v := by
  simp [jsGet]

/-- A trailing semicolon is turned into a period. -/
theorem replaceTrailingSemicolon_semi (s : String) :
    replaceTrailingSemicolon (s ++ ";") = s ++ "." := by
  unfold replaceTrailingSemicolon
  have h : (s ++ ";").data = s.data ++ [';'] := by simp
  rw [h]
  simp
  apply String.ext
  simp

/-! # The claims -/

/-- Helper: appending one clause and replacing the trailing semicolon ends
the message with that clause, terminated by a period. -/
theorem replaceTrailingSemicolon_append_clause (x : String) (e : ErrorInfo) :
    replaceTrailingSemicolon (x ++ mismatchClause e) =
      x ++ " '" ++ e.typeString ++ "' " ++ e.errorMessage ++ "." := by
  have h : x ++ mismatchClause e =
      (x ++ " '" ++ e.typeString ++ "' " ++ e.errorMessage) ++ ";" := by
    simp only [mismatchClause, String.append_assoc]
  rw [h, replaceTrailingSemicolon_semi]

/-- C5: for an inferred property matched by name with a declared property,
when their rendered type strings differ and the alternatives re-run yields
at least one mismatch, exactly one combined diagnostic is produced — its
message is the base sentence followed by each sub-mismatch clause joined by
semicolons and terminated with a period — anchored at the assignment node
for that property name; when the re-run yields no mismatches, no diagnostic
is produced for that property's types. -/
theorem propertyTypeMismatchMessage (nodes : List ParserRule)
    (foundProperty expectedProperty : Property)
    (hname : foundProperty.name = expectedProperty.name)
    (hdiff : propertyTypeArrayToString foundProperty.typeAlternatives ≠
      propertyTypeArrayToString expectedProperty.typeAlternatives) :
    (∀ es elast,
        checkAlternativesConsistencyHelper foundProperty.typeAlternatives
            expectedProperty.typeAlternatives = es ++ [elast] →
        ∀ a, (nodes.flatMap (fun node => extractAssignments node.alternatives)).find?
            (fun assignment => assignment.feature = foundProperty.name) = some a →
        checkPropertyType (applyErrorToAssignment nodes) foundProperty expectedProperty =
          [{ severity := .error
             message :=
               (es.foldl (fun acc e => acc ++ mismatchClause e)
                 (baseError foundProperty.name
                   (propertyTypeArrayToString foundProperty.typeAlternatives)
                   (propertyTypeArrayToString expectedProperty.typeAlternatives)))
               ++ " '" ++ elast.typeString ++ "' " ++ elast.errorMessage ++ "."
             node := NodeRef.assignmentNode a
             property := some "feature" }]) ∧
    (checkAlternativesConsistencyHelper foundProperty.typeAlternatives
        expectedProperty.typeAlternatives = [] →
      checkPropertyType (applyErrorToAssignment nodes) foundProperty expectedProperty = []) := by
  constructor
  · intro es elast herr a hfind
    simp only [checkPropertyType]
    rw [if_pos hdiff, herr, if_pos (by simp), List.foldl_append]
    simp only [List.foldl_cons, List.foldl_nil]
    rw [replaceTrailingSemicolon_append_clause]
    simp only [applyErrorToAssignment]
    rw [hfind]
  · intro herr
    simp only [checkPropertyType]
    rw [if_pos hdiff, herr]
    rfl

/-- Closed instance of C5: an array-valued property against a non-array
declaration yields the combined incompatibility message on the assignment
node. -/
theorem propertyTypeMismatchMessage_witness :
    checkPropertyType (applyErrorToAssignment [sampleRule]) samplePropArr samplePropReq =
      [{ severity := .error
         message := "The assigned type 'Array<A>' is not compatible with the declared property 'p' of type 'A'. 'A' can't be an array."
         node := NodeRef.assignmentNode sampleAssignP
         property := some "feature" }] := by
  have h := (propertyTypeMismatchMessage [sampleRule] samplePropArr samplePropReq
      (by decide) (by decide)).1
    [] { errorMessage := "can't be an array", typeString := "A" } (by decide)
    sampleAssignP (by decide)
  exact h.trans (by decide)

/-- C6: the "can't be optional" diagnostic for a matched property pair is
emitted if and only if neither side is the single-array-alternative case,
the declared property is required and the inferred property is optional;
it is anchored at the property's assignment node. -/
theorem optionalDowngrade (nodes : List ParserRule)
    (foundProperty expectedProperty : Property) (a : Assignment)
    (hfind : (nodes.flatMap (fun node => extractAssignments node.alternatives)).find?
        (fun assignment => assignment.feature = foundProperty.name) = some a) :
    (checkPropertyOptional (applyErrorToAssignment nodes) foundProperty expectedProperty ≠ []
      ↔ (singleArrayAlternative foundProperty = false ∧
         singleArrayAlternative expectedProperty = false ∧
         expectedProperty.optional = false ∧
         foundProperty.optional = true)) ∧
    (singleArrayAlternative foundProperty = false →
     singleArrayAlternative expectedProperty = false →
     expectedProperty.optional = false →
     foundProperty.optional = true →
     checkPropertyOptional (applyErrorToAssignment nodes) foundProperty expectedProperty =
       [{ severity := .error
          message := "A property '" ++ foundProperty.name ++ "' can't be optional."
          node := NodeRef.assignmentNode a
          property := some "feature" }]) := by
  have happ : applyErrorToAssignment nodes foundProperty.name
      ("A property '" ++ foundProperty.name ++ "' can't be optional.") =
      [{ severity := .error
         message := "A property '" ++ foundProperty.name ++ "' can't be optional."
         node := NodeRef.assignmentNode a
         property := some "feature" }] := by
    simp only [applyErrorToAssignment]
    rw [hfind]
  constructor
  · unfold checkPropertyOptional checkOptional
    cases h1 : singleArrayAlternative foundProperty <;>
      cases h2 : singleArrayAlternative expectedProperty <;>
      cases h3 : expectedProperty.optional <;>
      cases h4 : foundProperty.optional <;>
      simp [happ]
  · intro h1 h2 h3 h4
    unfold checkPropertyOptional checkOptional
    rw [h1, h2, h3, h4]
    simp [happ]

/-- Closed instance of C6: an optional inferred property against a required
declared property (no single-array-alternative on either side) yields the
"can't be optional" diagnostic on the assignment node. -/
theorem optionalDowngrade_witness :
    checkPropertyOptional (applyErrorToAssignment [sampleRule]) samplePropOpt samplePropReq =
      [{ severity := .error
         message := "A property 'p' can't be optional."
         node := NodeRef.assignmentNode sampleAssignP
         property := some "feature" }] := by
  have h := (optionalDowngrade [sampleRule] samplePropOpt samplePropReq sampleAssignP
      (by decide)).2 (by decide) (by decide) (by decide) (by decide)
  exact h.trans (by decide)

/-- C10: every rule-anchored diagnostic produced through
`applyErrorToRuleNodes` — here for the alternatives check — is emitted once
per producing parser rule, carries the suffix naming the returned type, and
is anchored at the rule's explicit inferred-type annotation node when
present, else at the rule node itself, with the `name` property as the
sub-range. -/
theorem ruleAnchoredDiagnosticsShape (inferred declared : List PropertyType)
    (nodes : List ParserRule) (typeName : String) :
    checkAlternativesConsistency inferred declared (applyErrorToRuleNodes nodes typeName) =
      (checkAlternativesConsistencyHelper inferred declared).flatMap (fun e =>
        nodes.map (fun node =>
          { severity := .error
            message := "A type '" ++ e.typeString ++ "' " ++ e.errorMessage ++
              " in a rule that returns type '" ++ typeName ++ "'."
            node := match node.inferredType with
                    | some t => NodeRef.inferredTypeNode t
                    | none => NodeRef.ruleNode node
            property := some "name" })) := rfl

/-- C7: supertype consistency is the symmetric set difference: every
inferred supertype name absent from the declared ones yields an
"is not expected" diagnostic and every declared name absent from the
inferred ones an "is expected" diagnostic, each once per producing rule
node; declared `{A,B}` against inferred `{A,C}` yields exactly the two
diagnostics about `'C'` (not expected) and `'B'` (expected). -/
theorem supertypeSymmetricDifference (inferred declared : List String)
    (nodes : List ParserRule) (typeName : String) :
    (checkSuperTypesConsistency inferred declared (applyErrorToRuleNodes nodes typeName) =
      ((inferred.filter (fun e => !declared.contains e)).flatMap (fun s =>
        nodes.map (fun node =>
          { severity := .error
            message := "A super type '" ++ s ++
              "' is not expected in a rule that returns type '" ++ typeName ++ "'."
            node := ruleErrorNode node
            property := some "name" }))) ++
      ((declared.filter (fun e => !inferred.contains e)).flatMap (fun s =>
        nodes.map (fun node =>
          { severity := .error
            message := "A super type '" ++ s ++
              "' is expected in a rule that returns type '" ++ typeName ++ "'."
            node := ruleErrorNode node
            property := some "name" })))) ∧
    ∀ r : ParserRule,
      (checkSuperTypesConsistency ["A", "C"] ["A", "B"]
          (applyErrorToRuleNodes [r] typeName)).map (fun d => d.message) =
        ["A super type 'C' is not expected in a rule that returns type '" ++ typeName ++ "'.",
         "A super type 'B' is expected in a rule that returns type '" ++ typeName ++ "'."] := by
  constructor
  · simp only [checkSuperTypesConsistency, applyErrorToRuleNodes, superTypeErrorMsg,
      String.append_assoc]
    rfl
  · intro r
    rfl

/-- Helper: agreeing alternative lists produce no alternative errors. -/
theorem helper_eq_nil_of_altsAgree (found expected : List PropertyType)
    (h : altsAgree found expected) :
    checkAlternativesConsistencyHelper found expected = [] := by
  simp only [checkAlternativesConsistencyHelper]
  rw [List.flatMap_eq_nil_iff]
  intro p hp
  have h1 := h.1 p hp
  unfold altFlagsMatch at h1
  cases hq : jsGet (stringToPropertyTypeList expected) p.1 with
  | none => rw [hq] at h1; cases h1
  | some q =>
    rw [hq] at h1
    simp only [Bool.and_eq_true, beq_iff_eq] at h1
    simp [h1.1, h1.2]

/-- Helper: agreeing supertype sets produce no supertype errors. -/
theorem superTypes_eq_nil_of_agree (inferred declared : List String)
    (errorToRuleNodes : String → List Diagnostic)
    (h : superTypesAgree inferred declared) :
    checkSuperTypesConsistency inferred declared errorToRuleNodes = [] := by
  unfold checkSuperTypesConsistency
  have h1 : inferred.filter (fun e => !declared.contains e) = [] := by
    rw [List.filter_eq_nil_iff]
    intro a ha
    simp
    exact h.1 a ha
  have h2 : declared.filter (fun e => !inferred.contains e) = [] := by
    rw [List.filter_eq_nil_iff]
    intro a ha
    simp
    exact h.2 a ha
  rw [h1, h2]
  rfl

/-- Helper: agreeing alternative lists of a matched property pair produce no
property-type diagnostic (whether or not the rendered strings differ). -/
theorem checkPropertyType_eq_nil_of_agree
    (errorToAssignment : String → String → List Diagnostic)
    (foundProperty expectedProperty : Property)
    (h : altsAgree foundProperty.typeAlternatives expectedProperty.typeAlternatives) :
    checkPropertyType errorToAssignment foundProperty expectedProperty = [] := by
  simp only [checkPropertyType]
  split_ifs with h1 h2
  · rw [helper_eq_nil_of_altsAgree _ _ h] at h2
    simp at h2
  · rfl
  · rfl

/-- Helper: matched properties with the same optional flag produce no
optionality diagnostic. -/
theorem checkPropertyOptional_eq_nil_of_opt_eq
    (errorToAssignment : String → String → List Diagnostic)
    (foundProperty expectedProperty : Property)
    (h : foundProperty.optional = expectedProperty.optional) :
    checkPropertyOptional errorToAssignment foundProperty expectedProperty = [] := by
  cases hq : expectedProperty.optional <;>
    simp [checkPropertyOptional, h, hq]

/-- Helper: agreeing property lists produce no property diagnostics. -/
theorem checkProperties_eq_nil_of_agree (inferred declared : List Property)
    (errorToRuleNodes : String → List Diagnostic)
    (errorToAssignment : String → String → List Diagnostic)
    (h : propertiesAgree inferred declared) :
    checkPropertiesConsistency inferred declared errorToRuleNodes errorToAssignment = [] := by
  unfold checkPropertiesConsistency
  rw [List.append_eq_nil]
  constructor
  · rw [List.flatMap_eq_nil_iff]
    intro p hp
    obtain ⟨q, hqmem, hqname⟩ := h.1 p hp
    have hfind : (declared.find? (fun e => p.name = e.name)).isSome := by
      rw [List.find?_isSome]
      exact ⟨q, hqmem, by simp [hqname]⟩
    obtain ⟨q0, hq0⟩ := Option.isSome_iff_exists.mp hfind
    rw [hq0]
    have hq0mem := List.mem_of_find?_eq_some hq0
    have hq0name : p.name = q0.name := by simpa using List.find?_some hq0
    have hag := h.2.2 p hp q0 hq0mem hq0name
    show checkPropertyType errorToAssignment p q0 ++
      checkPropertyOptional errorToAssignment p q0 = []
    rw [checkPropertyType_eq_nil_of_agree _ _ _ hag.1,
      checkPropertyOptional_eq_nil_of_opt_eq _ _ _ hag.2]
    rfl
  · rw [List.flatMap_eq_nil_iff]
    intro q hq
    obtain ⟨p, hpmem, hpname⟩ := h.2.1 q hq
    have hfind : (inferred.find? (fun e => q.name = e.name)).isSome := by
      rw [List.find?_isSome]
      exact ⟨p, hpmem, by simp [hpname]⟩
    obtain ⟨p0, hp0⟩ := Option.isSome_iff_exists.mp hfind
    rw [hp0]

/-- C1: when the inferred and declared descriptions of a name have the same
shape kind, identical property sets (same names, same canonical
type-alternative strings, same array/reference flags, same optional flags),
identical supertype name sets and identical union alternative sets, the
consistency checker emits zero diagnostics for that name. -/
theorem agreementSound (typeName : String) (i : InferredInfo) (d : DeclaredInfo)
    (h : descriptionsAgree i.inferred d.declared) :
    processTypeInfo typeName (.both i d) = [] := by
  obtain ⟨inf, nodes⟩ := i
  obtain ⟨decl, dnode⟩ := d
  cases inf with
  | unionT u1 =>
    cases decl with
    | unionT u2 =>
      have hag : altsAgree u1.union u2.union := h
      simp only [processTypeInfo]
      unfold checkAlternativesConsistency
      rw [helper_eq_nil_of_altsAgree _ _ hag]
      rfl
    | interfaceT t2 => exact (h : False).elim
  | interfaceT t1 =>
    cases decl with
    | unionT u2 => exact (h : False).elim
    | interfaceT t2 =>
      obtain ⟨hp, hs⟩ := (h : propertiesAgree _ _ ∧ superTypesAgree _ _)
      simp only [processTypeInfo]
      rw [checkProperties_eq_nil_of_agree _ _ _ _ hp,
        superTypes_eq_nil_of_agree _ _ _ hs]
      rfl

/-- Closed instance of C1: identical inferred and declared interfaces yield
zero diagnostics. -/
theorem agreementSound_witness :
    descriptionsAgree sampleInfInterface.inferred sampleDeclInterface.declared ∧
    processTypeInfo "X" (TypeInfo.both sampleInfInterface sampleDeclInterface) = [] :=
  ⟨by decide, agreementSound "X" sampleInfInterface sampleDeclInterface (by decide)⟩

/-- C2: for a found/expected alternative pair with equal canonical type
strings but differing array or reference flags, the checker produces
exactly one error, whose message is the one chosen by the spec's six-way
precedence; the precedence-guarded conditions select exactly one message
(never zero, never more than one). -/
theorem arrRefClassification (f e : PropertyType)
    (hkey : propertyTypeKey f = propertyTypeKey e)
    (hdiff : f.array ≠ e.array ∨ f.reference ≠ e.reference) :
    checkAlternativesConsistencyHelper [f] [e] =
      [{ errorMessage := arrRefError f e, typeString := propertyTypeKey f }] ∧
    precedenceSelect (arrRefConds f e) = [arrRefError f e] := by
  have hflags : (e.array != f.array || e.reference != f.reference) = true := by
    rcases hdiff with h | h
    · simp only [Bool.or_eq_true, bne_iff_ne]
      exact Or.inl (Ne.symm h)
    · simp only [Bool.or_eq_true, bne_iff_ne]
      exact Or.inr (Ne.symm h)
  constructor
  · have h1 : checkAlternativesConsistencyHelper [f] [e] =
        [(propertyTypeKey f, f)].flatMap (fun p =>
          match jsGet [(propertyTypeKey e, e)] p.1 with
          | none => [{ errorMessage := "is not expected", typeString := p.1 }]
          | some q =>
            if q.array != p.2.array || q.reference != p.2.reference then
              [{ errorMessage := arrRefError p.2 q, typeString := p.1 }]
            else []) := rfl
    rw [h1, ← hkey]
    simp only [List.flatMap_cons, List.flatMap_nil, List.append_nil, jsGet_singleton]
    rw [if_pos hflags]
  · obtain ⟨ft, fr, fa⟩ := f
    obtain ⟨et, er, ea⟩ := e
    simp only [PropertyType.array, PropertyType.reference] at hdiff ⊢
    cases fa <;> cases fr <;> cases ea <;> cases er <;>
      simp_all [arrRefError, arrRefConds, precedenceSelect]

/-- Closed instance of C2: an array-valued alternative found against a
non-array expected alternative of the same canonical string yields exactly
the single "can't be an array" error. -/
theorem arrRefClassification_witness :
    (propertyTypeKey sampleAltAArr = propertyTypeKey sampleAltA ∧
      (sampleAltAArr.array ≠ sampleAltA.array ∨
        sampleAltAArr.reference ≠ sampleAltA.reference)) ∧
    checkAlternativesConsistencyHelper [sampleAltAArr] [sampleAltA] =
      [{ errorMessage := "can't be an array", typeString := "A" }] :=
  ⟨⟨by decide, by decide⟩,
    ((arrRefClassification sampleAltAArr sampleAltA (by decide) (by decide)).1).trans
      (by decide)⟩

/-- C8: the wrapper around a registered check rethrows the
cooperative-cancellation signal unchanged, and turns any other thrown
failure into exactly one "An error occurred during validation" diagnostic
on the node under check, logging the failure (and its stack when
available) and completing normally instead of rethrowing. -/
theorem wrapperIsolatesFailures (check : ValidationCheck) (node : NodeRef) (e : JsError)
    (h : (check node).termination = .threw e) :
    (isOperationCancelled e = true → wrapValidationException check node = check node) ∧
    (isOperationCancelled e = false →
      (wrapValidationException check node).diagnostics =
        (check node).diagnostics ++
          [{ severity := .error
             message := "An error occurred during validation: " ++ errMessageOf e
             node := node
             property := none }] ∧
      (wrapValidationException check node).termination = .completed ∧
      (wrapValidationException check node).log =
        (check node).log ++
          [{ message := "An error occurred during validation:", thrown := some e }] ++
          (match e with
           | .errorObj _ (some stack) => [{ message := stack, thrown := none }]
           | _ => [])) := by
  have hw : wrapValidationException check node =
      (if isOperationCancelled e then check node
       else
         { diagnostics := (check node).diagnostics ++
             [{ severity := .error
                message := "An error occurred during validation: " ++ errMessageOf e
                node := node
                property := none }]
           log := (check node).log ++
             [{ message := "An error occurred during validation:", thrown := some e }] ++
             (match e with
              | .errorObj _ (some stack) => [{ message := stack, thrown := none }]
              | _ => [])
           termination := .completed }) := by
    simp only [wrapValidationException]
    split
    next heq => rw [h] at heq; cases heq
    next err heq =>
      rw [h] at heq
      injection heq with h2
      subst h2
      cases e with
      | errorObj m st => cases st <;> rfl
      | operationCancelled => rfl
      | otherValue v => rfl
  constructor
  · intro hc
    rw [hw, hc]
    simp
  · intro hc
    rw [hw, hc]
    simp

/-- Closed instance of C8: a check that throws an `Error` is converted into
one diagnostic on the node under check and completes normally. -/
theorem wrapperIsolatesFailures_witness :
    (wrapValidationException sampleThrowingCheck sampleNode).termination =
      CheckTermination.completed ∧
    (wrapValidationException sampleThrowingCheck sampleNode).diagnostics =
      [{ severity := .error
         message := "An error occurred during validation: boom"
         node := sampleNode
         property := none }] := by
  have h := wrapperIsolatesFailures sampleThrowingCheck sampleNode
    (JsError.errorObj "boom" (some "trace")) rfl
  exact ⟨(h.2 rfl).2.1, ((h.2 rfl).1).trans (by decide)⟩

/-- Helper: the `allTypesInfo` fold never removes present keys. -/
theorem jsGet_isSome_foldl_collectStep (res : AstResources)
    (info : List (String × InferredInfo)) (l : List TypeOrInterface)
    (acc : List (String × TypeInfo)) (n : String)
    (h : (jsGet acc n).isSome = true) :
    (jsGet (l.foldl (collectStep res info) acc) n).isSome = true := by
  induction l generalizing acc with
  | nil => exact h
  | cons hd tl ih =>
    simp only [List.foldl_cons]
    apply ih
    unfold collectStep
    split
    · split <;> (rw [jsGet_jsSet]; split <;> simp_all)
    · exact h

/-- Helper: a declared type of the list whose name has a declaration node
ends up with an entry in the `allTypesInfo` fold. -/
theorem jsGet_isSome_foldl_collectStep_mem (res : AstResources)
    (info : List (String × InferredInfo)) (l : List TypeOrInterface)
    (acc : List (String × TypeInfo)) (t : TypeOrInterface)
    (ht : t ∈ l) (hnode : (findDeclarationNode res t.name).isSome = true) :
    (jsGet (l.foldl (collectStep res info) acc) t.name).isSome = true := by
  induction l generalizing acc with
  | nil => cases ht
  | cons hd tl ih =>
    simp only [List.foldl_cons]
    rcases List.mem_cons.mp ht with heq | hmem
    · subst heq
      apply jsGet_isSome_foldl_collectStep
      unfold collectStep
      obtain ⟨nd, hnd⟩ := Option.isSome_iff_exists.mp hnode
      rw [hnd]
      split
      next n heq =>
        split <;> (rw [jsGet_jsSet, if_pos rfl]; rfl)
      next heq => simp at heq
    · exact ih _ hmem

/-- Helper: every entry the `allTypesInfo` fold adds comes from a declared
type of that name whose name has a declaration node, and it carries the
inferred description exactly when one is present. -/
theorem jsGet_foldl_collectStep_some (res : AstResources)
    (info : List (String × InferredInfo)) (l : List TypeOrInterface)
    (acc : List (String × TypeInfo)) (n : String) (e : TypeInfo)
    (h : jsGet (l.foldl (collectStep res info) acc) n = some e) :
    (∃ t nd, t ∈ l ∧ t.name = n ∧ findDeclarationNode res n = some nd ∧
      e = (match jsGet info n with
           | some i => TypeInfo.both i { declared := t, node := nd }
           | none => TypeInfo.declaredOnly { declared := t, node := nd })) ∨
    jsGet acc n = some e := by
  induction l generalizing acc with
  | nil => exact Or.inr h
  | cons hd tl ih =>
    simp only [List.foldl_cons] at h
    rcases ih _ h with hl | hacc
    · obtain ⟨t, nd, htl, rest⟩ := hl
      exact Or.inl ⟨t, nd, List.mem_cons_of_mem _ htl, rest⟩
    · unfold collectStep at hacc
      cases hnd : findDeclarationNode res hd.name with
      | none =>
        rw [hnd] at hacc
        exact Or.inr hacc
      | some nd =>
        rw [hnd] at hacc
        cases hji : jsGet info hd.name with
        | some i =>
          rw [hji, jsGet_jsSet] at hacc
          by_cases heq : hd.name = n
          · rw [if_pos heq] at hacc
            injection hacc with he
            refine Or.inl ⟨hd, nd, List.mem_cons_self _ _, heq, ?_, ?_⟩
            · rw [← heq]
              exact hnd
            · rw [← heq, hji]
              exact he.symm
          · rw [if_neg heq] at hacc
            exact Or.inr hacc
        | none =>
          rw [hji, jsGet_jsSet] at hacc
          by_cases heq : hd.name = n
          · rw [if_pos heq] at hacc
            injection hacc with he
            refine Or.inl ⟨hd, nd, List.mem_cons_self _ _, heq, ?_, ?_⟩
            · rw [← heq]
              exact hnd
            · rw [← heq, hji]
              exact he.symm
          · rw [if_neg heq] at hacc
            exact Or.inr hacc

/-- Helper: the `allTypesInfo` fold stores nothing under a name none of
whose declared types has a declaration node — which covers both undeclared
names and declared names lacking a declaration node. -/
theorem jsGet_foldl_collectStep_of_no_node (res : AstResources)
    (info : List (String × InferredInfo)) (l : List TypeOrInterface)
    (acc : List (String × TypeInfo)) (n : String)
    (h : ∀ t ∈ l, t.name = n → findDeclarationNode res n = none) :
    jsGet (l.foldl (collectStep res info) acc) n = jsGet acc n := by
  induction l generalizing acc with
  | nil => rfl
  | cons hd tl ih =>
    simp only [List.foldl_cons]
    rw [ih (collectStep res info acc hd)
      (fun t ht hn => h t (List.mem_cons_of_mem _ ht) hn)]
    by_cases heq : hd.name = n
    · have hnone : findDeclarationNode res hd.name = none := by
        rw [heq]
        exact h hd (List.mem_cons_self _ _) heq
      unfold collectStep
      rw [hnone]
    · unfold collectStep
      split
      · split <;> (rw [jsGet_jsSet, if_neg heq])
      · rfl

/-- Counterexample to C3 as stated: a grammar with one inferred type `X`
and no declarations yields a resource map with no entry for `X` — the
returned map is folded over the declared types only, starting from an
empty map, so inferred-only names are dropped. -/
theorem inferredOnlyNameDropped :
    (mergeTypesAndInterfaces c3Inferred).map TypeOrInterface.name = ["X"] ∧
    jsGet (collectValidationResources c3Resources c3Inferred emptyAstTypes) "X" = none := by
  decide

/-- C3 (amended): the map returned by `collectValidationResources` contains
an entry for every declared type name that has a declaration node; every
entry stored under a name comes from a declared type of that name with its
declaration node and attaches the inferred description exactly when one is
present (`both`) and otherwise not (`declaredOnly`); and a name none of
whose declared types has a declaration node — in particular an undeclared,
inferred-only name — has no entry. -/
theorem declaredNamesPresent (astResources : AstResources) (inferred declared : AstTypes) :
    (∀ t ∈ mergeTypesAndInterfaces declared,
       (findDeclarationNode astResources t.name).isSome = true →
       ∃ e, jsGet (collectValidationResources astResources inferred declared) t.name
         = some e) ∧
    (∀ n e, jsGet (collectValidationResources astResources inferred declared) n = some e →
       ∃ t nd, t ∈ mergeTypesAndInterfaces declared ∧ t.name = n ∧
         findDeclarationNode astResources n = some nd ∧
         e = (match jsGet (inferredInfoMap astResources inferred) n with
              | some i => TypeInfo.both i { declared := t, node := nd }
              | none => TypeInfo.declaredOnly { declared := t, node := nd })) ∧
    (∀ n, (∀ t ∈ mergeTypesAndInterfaces declared, t.name = n →
         findDeclarationNode astResources n = none) →
       jsGet (collectValidationResources astResources inferred declared) n = none) := by
  refine ⟨?_, ?_, ?_⟩
  · intro t ht hnode
    exact Option.isSome_iff_exists.mp
      (jsGet_isSome_foldl_collectStep_mem astResources
        (inferredInfoMap astResources inferred) _ [] t ht hnode)
  · intro n e he
    unfold collectValidationResources at he
    rcases jsGet_foldl_collectStep_some astResources
        (inferredInfoMap astResources inferred) _ [] n e he with h | h
    · exact h
    · simp [jsGet] at h
  · intro n hn
    unfold collectValidationResources
    rw [jsGet_foldl_collectStep_of_no_node astResources _ _ [] n hn]
    rfl

/-- Closed instance of the amended C3: a declared union `D` with a `type D`
declaration node gets an entry in the returned map. -/
theorem declaredNamesPresent_witness :
    ∃ e, jsGet (collectValidationResources d3Resources emptyAstTypes d3Declared) "D"
      = some e :=
  (declaredNamesPresent d3Resources emptyAstTypes d3Declared).1
    (TypeOrInterface.unionT { name := "D", union := [sampleAltA] }) (by decide) (by decide)

/-- Helper: the just-added value is retrieved under its key. -/
theorem getChecks_multiAdd_self (m : List (String × ValidationCheck)) (t : String)
    (v : ValidationCheck) : v ∈ getChecks (multiAdd m t v) t := by
  unfold getChecks multiGet multiAdd
  rw [List.filter_append, List.map_append]
  refine List.mem_append_right _ ?_
  simp

/-- Helper: `multiAdd` never removes stored checks. -/
theorem getChecks_multiAdd_mono (m : List (String × ValidationCheck)) (t k : String)
    (v x : ValidationCheck) (h : x ∈ getChecks m t) : x ∈ getChecks (multiAdd m k v) t := by
  unfold getChecks multiGet multiAdd
  rw [List.filter_append, List.map_append]
  exact List.mem_append_left _ h

/-- Helper: the registration fold never removes stored checks. -/
theorem getChecks_regFold_mono (r : AstReflection) (s : String) (c : ValidationCheck)
    (l : List String) (m : List (String × ValidationCheck)) (t : String)
    (x : ValidationCheck) (h : x ∈ getChecks m t) :
    x ∈ getChecks
      (l.foldl (fun acc subtype =>
        if r.isSubtype subtype s then multiAdd acc subtype c else acc) m) t := by
  induction l generalizing m with
  | nil => exact h
  | cons hd tl ih =>
    simp only [List.foldl_cons]
    apply ih
    by_cases hs : r.isSubtype hd s = true
    · rw [if_pos hs]
      exact getChecks_multiAdd_mono _ _ _ _ _ h
    · rw [if_neg hs]
      exact h

/-- Helper: the registration fold stores the check under every visited
subtype of the registered name. -/
theorem getChecks_regFold_self (r : AstReflection) (s : String) (c : ValidationCheck)
    (l : List String) (m : List (String × ValidationCheck)) (t : String)
    (ht : t ∈ l) (hsub : r.isSubtype t s = true) :
    c ∈ getChecks
      (l.foldl (fun acc subtype =>
        if r.isSubtype subtype s then multiAdd acc subtype c else acc) m) t := by
  induction l generalizing m with
  | nil => cases ht
  | cons hd tl ih =>
    simp only [List.foldl_cons]
    rcases List.mem_cons.mp ht with heq | hmem
    · subst heq
      apply getChecks_regFold_mono
      rw [if_pos hsub]
      exact getChecks_multiAdd_self _ _ _
    · exact ih _ hmem

/-- Helper: `doRegister` never removes stored checks. -/
theorem getChecks_doRegister_mono (r : AstReflection) (s : String) (c : ValidationCheck)
    (m : List (String × ValidationCheck)) (t : String) (x : ValidationCheck)
    (h : x ∈ getChecks m t) : x ∈ getChecks (doRegister r s c m) t :=
  getChecks_regFold_mono r s c r.getAllTypes m t x h

/-- Helper: `doRegister` stores the check under every reflective subtype of
the registered name. -/
theorem getChecks_doRegister_self (r : AstReflection) (s : String) (c : ValidationCheck)
    (m : List (String × ValidationCheck)) (t : String)
    (ht : t ∈ r.getAllTypes) (hsub : r.isSubtype t s = true) :
    c ∈ getChecks (doRegister r s c m) t :=
  getChecks_regFold_self r s c r.getAllTypes m t ht hsub

/-- Helper: `register` never removes stored checks. -/
theorem getChecks_register_mono (r : AstReflection)
    (regs : List (String × ValidationCheck)) (m : List (String × ValidationCheck))
    (t : String) (x : ValidationCheck) (h : x ∈ getChecks m t) :
    x ∈ getChecks (register r regs m) t := by
  induction regs generalizing m with
  | nil => exact h
  | cons hd tl ih =>
    exact ih _ (getChecks_doRegister_mono r hd.1 (wrapValidationException hd.2) m t x h)

/-- C9: a check registered against a name `S` is stored, at registration
time, under every name the reflection oracle reports as a subtype of `S`;
`getChecks` is a plain lookup of the exact queried name and already
includes every check registered for an ancestor type. -/
theorem subtypePropagatedRegistration (r : AstReflection)
    (regs : List (String × ValidationCheck)) (m : List (String × ValidationCheck))
    (S T : String) (c : ValidationCheck)
    (hmem : (S, c) ∈ regs) (hT : T ∈ r.getAllTypes) (hsub : r.isSubtype T S = true) :
    wrapValidationException c ∈ getChecks (register r regs m) T := by
  induction regs generalizing m with
  | nil => cases hmem
  | cons hd tl ih =>
    rcases List.mem_cons.mp hmem with heq | hmem2
    · subst heq
      exact getChecks_register_mono r tl _ T _
        (getChecks_doRegister_self r S (wrapValidationException c) m T hT hsub)
    · exact ih _ hmem2

/-- Closed instance of C9: a check registered for `A` is returned by
`getChecks "B"` when the oracle reports `B` as a subtype of `A`. -/
theorem subtypePropagatedRegistration_witness :
    ("B" ∈ sampleReflection.getAllTypes ∧ sampleReflection.isSubtype "B" "A" = true) ∧
    wrapValidationException sampleCheck ∈
      getChecks (register sampleReflection [("A", sampleCheck)] []) "B" :=
  ⟨⟨by decide, by decide⟩,
    subtypePropagatedRegistration sampleReflection [("A", sampleCheck)] [] "A" "B"
      sampleCheck (List.mem_singleton.mpr rfl) (by decide) (by decide)⟩

/-- C4: when the inferred and declared descriptions of a name have
mismatched shape kinds, the shape-mismatch error is emitted once anchored
to each producing rule node and once anchored to the declaration node, with
no further diagnostics for that name, while the pass continues with the
remaining names. -/
theorem shapeMismatchDiagnostics (typeName : String) (i : InferredInfo) (d : DeclaredInfo)
    (h : isType i.inferred ≠ isType d.declared) :
    processTypeInfo typeName (.both i d) =
      (i.nodes.map (fun node =>
        { severity := .error
          message := "Inferred and declared versions of type " ++ typeName ++
            " have to be types or interfaces both."
          node := ruleErrorNode node
          property := some "name" })) ++
      [{ severity := .error
         message := "Inferred and declared versions of type " ++ typeName ++
           " have to be types or interfaces both."
         node := NodeRef.declNode d.node
         property := some "name" }] ∧
    ∀ l1 l2 : List (String × TypeInfo),
      validationPass (l1 ++ (typeName, TypeInfo.both i d) :: l2) =
        validationPass l1 ++ processTypeInfo typeName (.both i d) ++ validationPass l2 := by
  constructor
  · obtain ⟨inf, nodes⟩ := i
    obtain ⟨decl, dnode⟩ := d
    cases inf <;> cases decl <;> simp_all [processTypeInfo, isType, shapeMismatchMsg]
  · intro l1 l2
    simp [validationPass]

/-- Closed instance of C4: an inferred union against a declared interface
of the same name produces the shape-mismatch error on the rule node and on
the declaration node, and nothing else. -/
theorem shapeMismatchDiagnostics_witness :
    (isType sampleInfUnion.inferred ≠ isType sampleDeclInterface.declared) ∧
    processTypeInfo "X" (TypeInfo.both sampleInfUnion sampleDeclInterface) =
      [{ severity := .error
         message := "Inferred and declared versions of type X have to be types or interfaces both."
         node := NodeRef.ruleNode sampleRule
         property := some "name" },
       { severity := .error
         message := "Inferred and declared versions of type X have to be types or interfaces both."
         node := NodeRef.declNode (.interfaceDecl { name := "X" })
         property := some "name" }] :=
  ⟨by decide,
    ((shapeMismatchDiagnostics "X" sampleInfUnion sampleDeclInterface (by decide)).1).trans
      (by decide)⟩

end LangiumTV
